import Mathlib

/-!
# Form controller of `frontend/script.js`

A shallow embedding of the two click handlers of
`Git_hub_issue_assistant_project/frontend/script.js` (the analyze handler,
lines 9-56, and the copy handler, lines 58-65) together with the ECMAScript
built-ins they call (`String.prototype.trim`, `Number`, `JSON.stringify`,
string concatenation), followed by the properties of the controller.

Modelling conventions.

* Text is a Lean `String`, a sequence of Unicode scalar values.  ECMAScript
  strings holding an unpaired surrogate code unit are outside the model.
* An ECMAScript Number is a `JSNum`: NaN, the two infinities, or a finite
  binary64 value `± m * 2 ^ e`.  Decimal text is converted with exact
  round-to-nearest, ties-to-even.
* The page is a record of the DOM properties the script reads or writes,
  extended with logs of the effects it performs on its collaborators
  (`fetch`, `alert`, `navigator.clipboard.writeText`) and of its writes to
  `analyzeBtn.disabled`.
* `fetch` and `resp.json()` are platform operations: their outcomes (a
  response or a rejection, a parsed value or a rejection) are inputs of the
  model.
-/

namespace IssueAssistant

/-! ## ECMAScript white space and `String.prototype.trim` -/

/-- Code points of the ECMAScript `WhiteSpace` and `LineTerminator`
productions (ECMA-262, 12.2 and 12.3): TAB, LF, VT, FF, CR, SP, NBSP,
the Unicode space separators, LS, PS and ZWNBSP. -/
def isJSWhiteSpace (c : Char) : Bool :=
  let n := c.toNat
  n == 0x09 || n == 0x0A || n == 0x0B || n == 0x0C || n == 0x0D || n == 0x20 ||
  n == 0xA0 || n == 0x1680 || (0x2000 ≤ n && n ≤ 0x200A) || n == 0x2028 ||
  n == 0x2029 || n == 0x202F || n == 0x205F || n == 0x3000 || n == 0xFEFF

/-- Drop the leading white space of a character list. -/
def trimStart : List Char → List Char
  | [] => []
  | c :: cs => if isJSWhiteSpace c then trimStart cs else c :: cs

/-- Drop the trailing white space of a character list. -/
def trimEnd (cs : List Char) : List Char :=
  (trimStart cs.reverse).reverse

/-- The character list of `s.trim()`. -/
def trimChars (cs : List Char) : List Char :=
  trimEnd (trimStart cs)

/-- The method `String.prototype.trim` (ECMA-262, 22.1.3.32). -/
def jsTrim (s : String) : String :=
  String.mk (trimChars s.data)

/-! ## ECMAScript Numbers -/

/-- An ECMAScript Number value.  `fin neg m e` is the binary64 value
`(-1)^neg * m * 2^e`, kept in the IEEE 754 presentation: `m < 2^53`,
`-1074 ≤ e ≤ 971`, and `2^52 ≤ m` unless `e = -1074`. -/
inductive JSNum where
  | nan
  | inf (neg : Bool)
  | fin (neg : Bool) (m : Nat) (e : Int)
  deriving DecidableEq, Repr

/-- Floor of the binary logarithm, by repeated halving (`fuel` bounds the
number of halvings). -/
def log2Aux : Nat → Nat → Nat
  | 0, _ => 0
  | fuel + 1, n => if n < 2 then 0 else log2Aux fuel (n / 2) + 1

/-- Floor of the binary logarithm of a positive natural number. -/
def ilog2 (n : Nat) : Nat := log2Aux n n

/-- Floor of the binary logarithm of the positive rational `n / d`. -/
def floorLog2Ratio (n d : Nat) : Int :=
  let l : Int := (ilog2 n : Int) - (ilog2 d : Int)
  if d * 2 ^ l.toNat ≤ n * 2 ^ (-l).toNat then l else l - 1

/-- The integer nearest to `n / d`, ties to the even one. -/
def roundHalfEven (n d : Nat) : Nat :=
  let q := n / d
  let r := n % d
  if 2 * r < d then q
  else if d < 2 * r then q + 1
  else if q % 2 = 0 then q
  else q + 1

/-- The Number value for the rational `(-1)^neg * n / d` (ECMA-262, 6.1.6.1,
"the Number value for x"): round to nearest binary64, ties to even, with
overflow to an infinity and underflow to a zero of the same sign. -/
def roundMV (neg : Bool) (n d : Nat) : JSNum :=
  if n = 0 then .fin neg 0 (-1074)
  else
    let f := floorLog2Ratio n d
    let e := max (f - 52) (-1074)
    let m := roundHalfEven (n * 2 ^ (-e).toNat) (d * 2 ^ e.toNat)
    let m1 := if m = 2 ^ 53 then 2 ^ 52 else m
    let e1 := if m = 2 ^ 53 then e + 1 else e
    if 971 < e1 then .inf neg else .fin neg m1 e1

/-- The Number value of a natural number. -/
def JSNum.ofNat (n : Nat) : JSNum := roundMV false n 1

/-- The abstract operation ToBoolean on a Number (ECMA-262, 7.1.2): false for
`+0`, `-0` and NaN, true otherwise. -/
def JSNum.truthy : JSNum → Bool
  | .nan => false
  | .inf _ => true
  | .fin _ m _ => m != 0

/-- Whether a Number is an integer: finite with no fractional part. -/
def JSNum.isInteger : JSNum → Bool
  | .nan => false
  | .inf _ => false
  | .fin _ m e => m % 2 ^ (-e).toNat == 0

/-! ## `Number(text)`: the StringToNumber conversion -/

/-- Value of a hexadecimal digit character. -/
def hexDigit? (c : Char) : Option Nat :=
  if '0' ≤ c ∧ c ≤ '9' then some (c.toNat - '0'.toNat)
  else if 'a' ≤ c ∧ c ≤ 'f' then some (c.toNat - 'a'.toNat + 10)
  else if 'A' ≤ c ∧ c ≤ 'F' then some (c.toNat - 'A'.toNat + 10)
  else none

/-- Value of a digit character in the given radix (2, 8, 10 or 16). -/
def radixDigit? (radix : Nat) (c : Char) : Option Nat :=
  match hexDigit? c with
  | some v => if v < radix then some v else none
  | none => none

/-- Read a run of digits in the given radix, most significant first.
Returns the accumulated value, the number of digits read and the rest. -/
def readDigits (radix : Nat) : List Char → Nat → Nat → Nat × Nat × List Char
  | [], acc, cnt => (acc, cnt, [])
  | c :: cs, acc, cnt =>
    match radixDigit? radix c with
    | some v => readDigits radix cs (acc * radix + v) (cnt + 1)
    | none => (acc, cnt, c :: cs)

/-- The optional `ExponentPart` of a decimal literal followed by the end of
the text: `none` when the text is not of that form, otherwise the exponent. -/
def readExponent : List Char → Option Int
  | [] => some 0
  | c :: cs =>
    if c = 'e' ∨ c = 'E' then
      let (neg, ds) : Bool × List Char :=
        match cs with
        | '+' :: r => (false, r)
        | '-' :: r => (true, r)
        | r => (false, r)
      match readDigits 10 ds 0 0 with
      | (v, cnt, []) =>
        if cnt = 0 then none else some (if neg then -(v : Int) else (v : Int))
      | _ => none
    else none

/-- The production `StrUnsignedDecimalLiteral` other than `Infinity`
(ECMA-262, 7.1.4.1): digits with an optional fraction and exponent. -/
def readUnsignedDecimal (neg : Bool) (cs : List Char) : JSNum :=
  let (ip, icnt, r1) := readDigits 10 cs 0 0
  let (hasDot, r2) : Bool × List Char :=
    match r1 with
    | '.' :: r => (true, r)
    | r => (false, r)
  let (fp, fcnt, r3) : Nat × Nat × List Char :=
    if hasDot then readDigits 10 r2 ip 0 else (ip, 0, r2)
  if icnt + fcnt = 0 then .nan
  else
    match readExponent r3 with
    | none => .nan
    | some ex =>
      let sc : Int := ex - (fcnt : Int)
      roundMV neg (fp * 10 ^ sc.toNat) (10 ^ (-sc).toNat)

/-- The production `StrDecimalLiteral`: an optional sign, then `Infinity` or
an unsigned decimal literal. -/
def readDecimal (cs : List Char) : JSNum :=
  let (neg, r) : Bool × List Char :=
    match cs with
    | '+' :: r => (false, r)
    | '-' :: r => (true, r)
    | r => (false, r)
  if r = "Infinity".data then .inf neg else readUnsignedDecimal neg r

/-- The production `NonDecimalIntegerLiteral` body: at least one digit of the
radix and nothing else. -/
def readRadix (radix : Nat) (cs : List Char) : JSNum :=
  match readDigits radix cs 0 0 with
  | (v, cnt, []) => if cnt = 0 then .nan else roundMV false v 1
  | _ => .nan

/-- StringToNumber (ECMA-262, 7.1.4.1.1): white space is trimmed, the empty
text is `+0`, a `StrNumericLiteral` is its rounded mathematical value, and
any other text is NaN. -/
def stringToNumber (s : String) : JSNum :=
  match trimChars s.data with
  | [] => .fin false 0 (-1074)
  | '0' :: 'x' :: r => readRadix 16 r
  | '0' :: 'X' :: r => readRadix 16 r
  | '0' :: 'o' :: r => readRadix 8 r
  | '0' :: 'O' :: r => readRadix 8 r
  | '0' :: 'b' :: r => readRadix 2 r
  | '0' :: 'B' :: r => readRadix 2 r
  | cs => readDecimal cs

/-! ## `Number::toString` -/

/-- Decimal digits of a natural number, most significant first, by repeated
division (`fuel` bounds the number of digits). -/
def natDigitsAux : Nat → Nat → List Char → List Char
  | 0, _, acc => acc
  | fuel + 1, n, acc =>
    let acc1 := Char.ofNat ('0'.toNat + n % 10) :: acc
    if n < 10 then acc1 else natDigitsAux fuel (n / 10) acc1

/-- Decimal representation of a natural number. -/
def natDigits (n : Nat) : List Char := natDigitsAux (n + 1) n []

/-- Search upwards for the decimal exponent `n` with `xn / xd < 10 ^ n`,
starting from a candidate that is not above it. -/
def decExpAux : Nat → Nat → Nat → Int → Int
  | 0, _, _, n => n
  | fuel + 1, xn, xd, n =>
    if xn * 10 ^ (-n).toNat < xd * 10 ^ n.toNat then n
    else decExpAux fuel xn xd (n + 1)

/-- The integer `n` with `10 ^ (n - 1) ≤ xn / xd < 10 ^ n`, for a positive
binary64 value `xn / xd`.  The search starts just below the estimate
`log2 (xn / xd) * 0.30103`, which is within one of the decimal logarithm over
the binary64 range. -/
def decExp (xn xd : Nat) : Int :=
  decExpAux 8 xn xd (floorLog2Ratio xn xd * 30103 / 100000 - 1)

/-- Whether the decimal `s * 10 ^ p` converts to the Number `x`. -/
def roundsTo (x : JSNum) (s : Nat) (p : Int) : Bool :=
  roundMV false (s * 10 ^ p.toNat) (10 ^ (-p).toNat) == x

/-- Candidate digit strings of length `k` for the positive value `xn / xd`
with decimal exponent `n0`: the two `k`-digit decimals that bracket the
value, each paired with its decimal exponent, kept when they convert back to
`x`; the nearer one first (on a tie, the even one). -/
def candidates (x : JSNum) (xn xd : Nat) (n0 : Int) (k : Nat) : List (Nat × Int) :=
  let p : Int := n0 - (k : Int)
  let num := xn * 10 ^ (-p).toNat
  let den := xd * 10 ^ p.toNat
  let lo := num / den
  let r := num % den
  let cLo : Nat × Int := (lo, n0)
  let cHi : Nat × Int := if lo + 1 < 10 ^ k then (lo + 1, n0) else (10 ^ (k - 1), n0 + 1)
  let okLo := roundsTo x lo p
  let okHi := roundsTo x (lo + 1) p
  let loFirst := 2 * r < den || (2 * r == den && lo % 2 == 0)
  let ordered := if loFirst then [(okLo, cLo), (okHi, cHi)] else [(okHi, cHi), (okLo, cLo)]
  (ordered.filter (fun c => c.1)).map (fun c => c.2)

/-- Shortest digit string: the first length `k`, counting up from `k`, that
has a candidate (`fuel` bounds the lengths tried). -/
def shortestAux (x : JSNum) (xn xd : Nat) (n0 : Int) : Nat → Nat → Nat × Nat × Int
  | 0, k => (k, 0, n0)
  | fuel + 1, k =>
    match candidates x xn xd n0 k with
    | (s, n) :: _ => (k, s, n)
    | [] => shortestAux x xn xd n0 fuel (k + 1)

/-- The triple `(k, s, n)` of step 5 of `Number::toString` (ECMA-262,
6.1.6.1.20) for the positive finite value `m * 2 ^ e`: `k` is as small as
possible with `s * 10 ^ (n - k)` converting to the value. -/
def shortestDecimal (m : Nat) (e : Int) : Nat × Nat × Int :=
  let xn := m * 2 ^ e.toNat
  let xd := 2 ^ (-e).toNat
  shortestAux (.fin false m e) xn xd (decExp xn xd) 21 1

/-- Steps 6 to 9 of `Number::toString`: lay the digits out in positional or
exponential form. -/
def formatDecimal (k : Nat) (s : Nat) (n : Int) : List Char :=
  let ds := natDigits s
  if -5 ≤ n ∧ n ≤ 21 then
    if (k : Int) ≤ n then ds ++ List.replicate (n.toNat - k) '0'
    else if 0 < n then ds.take n.toNat ++ '.' :: ds.drop n.toNat
    else '0' :: '.' :: (List.replicate (-n).toNat '0' ++ ds)
  else
    let ex : Int := n - 1
    let tail := 'e' :: (if 0 ≤ ex then '+' else '-') :: natDigits ex.natAbs
    if k = 1 then ds ++ tail
    else ds.take 1 ++ '.' :: (ds.drop 1 ++ tail)

/-- The operation `Number::toString` with radix 10 (ECMA-262, 6.1.6.1.20). -/
def numberToString : JSNum → String
  | .nan => "NaN"
  | .inf false => "Infinity"
  | .inf true => "-Infinity"
  | .fin neg m e =>
    if m = 0 then "0"
    else
      let (k, s, n) := shortestDecimal m e
      String.mk ((if neg then ['-'] else []) ++ formatDecimal k s n)

/-! ## JSON values, `JSON.stringify` and ToString -/

/-- An ECMAScript value of the kind `JSON.parse` and object literals of
strings and numbers produce.  The members of `obj` are the own properties in
enumeration order; the value `undefined` is the `none` of an `Option`. -/
inductive JSVal where
  | null
  | bool (b : Bool)
  | num (n : JSNum)
  | str (s : String)
  | arr (xs : List JSVal)
  | obj (fs : List (String × JSVal))

/-- An exception value: an `Error` object, of which the script reads only
the `message`. -/
structure JSError where
  message : String
  deriving DecidableEq, Repr

/-- Messages of the two `TypeError`s the engine can raise while line 38 is
evaluated.  Their wording is engine-specific, so it is a parameter. -/
structure Engine where
  nullPropertyMessage : String
  toPrimitiveMessage : String

/-- The wording of V8 for the two messages. -/
def v8Engine : Engine :=
  { nullPropertyMessage := "Cannot read properties of null (reading \x27detail\x27)"
    toPrimitiveMessage := "Cannot convert object to primitive value" }

/-- Lowercase hexadecimal digit of a value below 16. -/
def hexChar (n : Nat) : Char :=
  if n < 10 then Char.ofNat ('0'.toNat + n) else Char.ofNat ('a'.toNat + (n - 10))

/-- The escape of one code point in QuoteJSONString (ECMA-262, 25.5.2.3):
the short escapes of the table, a four-digit lowercase unicode escape for the
other control characters, the code point itself otherwise. -/
def quoteChar (c : Char) : List Char :=
  let n := c.toNat
  if n = 0x08 then ['\\', 'b']
  else if n = 0x09 then ['\\', 't']
  else if n = 0x0A then ['\\', 'n']
  else if n = 0x0C then ['\\', 'f']
  else if n = 0x0D then ['\\', 'r']
  else if n = 0x22 then ['\\', '"']
  else if n = 0x5C then ['\\', '\\']
  else if n < 0x20 then ['\\', 'u', '0', '0', hexChar (n / 16), hexChar (n % 16)]
  else [c]

/-- The abstract operation QuoteJSONString. -/
def quoteJSONString (s : String) : String :=
  String.mk ('"' :: (s.data.flatMap quoteChar ++ ['"']))

/-- Whether a Number is finite. -/
def JSNum.isFinite : JSNum → Bool
  | .fin _ _ _ => true
  | _ => false

/-- The closing steps of SerializeJSONObject and SerializeJSONArray
(ECMA-262, 25.5.2.5 and 25.5.2.6): join the serialized parts between the
brackets, on one line when the gap is empty and one part per line, indented,
otherwise. -/
def wrapJSON (opn cls gap stepback : String) (parts : List String) : String :=
  if parts.isEmpty then opn ++ cls
  else if gap.isEmpty then opn ++ ",".intercalate parts ++ cls
  else
    opn ++ "\n" ++ (stepback ++ gap) ++
      (",\n" ++ (stepback ++ gap)).intercalate parts ++ "\n" ++ stepback ++ cls

/-- The abstract operation SerializeJSONProperty (ECMA-262, 25.5.2.2) for a
value holding no function: `gap` is the indentation unit and `indent` the
current indentation.  A JSON value never has a callable `toJSON`, and none of
its members serializes to `undefined`. -/
def serializeJSON (gap : String) : String → JSVal → String
  | _, .null => "null"
  | _, .bool b => if b then "true" else "false"
  | _, .num n => if n.isFinite then numberToString n else "null"
  | _, .str s => quoteJSONString s
  | indent, .arr xs => wrapJSON "[" "]" gap indent (elems (indent ++ gap) xs)
  | indent, .obj fs => wrapJSON "\x7b" "\x7d" gap indent (members (indent ++ gap) fs)
where
  /-- Serialized elements of an array. -/
  elems (indent : String) : List JSVal → List String
    | [] => []
    | x :: xs => serializeJSON gap indent x :: elems indent xs
  /-- Serialized members of an object. -/
  members (indent : String) : List (String × JSVal) → List String
    | [] => []
    | (k, v) :: fs =>
      (quoteJSONString k ++ ":" ++ (if gap.isEmpty then "" else " ") ++
        serializeJSON gap indent v) :: members indent fs

/-- The call `JSON.stringify(v)`: no indentation. -/
def jsonStringify (v : JSVal) : String := serializeJSON "" "" v

/-- The call `JSON.stringify(v, null, 2)`: the gap is two spaces. -/
def jsonStringifyIndent2 (v : JSVal) : String := serializeJSON "  " "" v

/-- The own property `name` of the members of an object. -/
def lookupProp (name : String) : List (String × JSVal) → Option JSVal
  | [] => none
  | (k, v) :: fs => if k = name then some v else lookupProp name fs

/-- The property read `v.detail` (ECMA-262, 13.3.2): a `TypeError` on `null`,
the own property of an object, and `undefined` on every other JSON value
(no prototype defines `detail`). -/
def getDetail (E : Engine) : JSVal → Except JSError (Option JSVal)
  | .null => .error ⟨E.nullPropertyMessage⟩
  | .obj fs => .ok (lookupProp "detail" fs)
  | _ => .ok none

/-- The abstract operation ToBoolean (ECMA-262, 7.1.2), with `none` for
`undefined`. -/
def toBoolean : Option JSVal → Bool
  | none => false
  | some .null => false
  | some (.bool b) => b
  | some (.num n) => n.truthy
  | some (.str s) => decide (s ≠ "")
  | some (.arr _) => true
  | some (.obj _) => true

/-- The abstract operation ToString applied to the primitive of a JSON value
(ECMA-262, 7.1.17 after 7.1.1), as string concatenation performs it.  An
array is joined with commas, `null` elements giving the empty text; an object
is `[object Object]`, unless an own `toString` member, never callable, hides
`Object.prototype.toString`, in which case no primitive exists and a
`TypeError` is raised. -/
def toStringJS (E : Engine) : JSVal → Except JSError String
  | .null => .ok "null"
  | .bool b => .ok (if b then "true" else "false")
  | .num n => .ok (numberToString n)
  | .str s => .ok s
  | .arr xs => (joinElems xs).map (fun parts => ",".intercalate parts)
  | .obj fs =>
    match lookupProp "toString" fs with
    | some _ => .error ⟨E.toPrimitiveMessage⟩
    | none => .ok "[object Object]"
where
  /-- The texts `Array.prototype.join` concatenates. -/
  joinElems : List JSVal → Except JSError (List String)
    | [] => .ok []
    | .null :: xs => (joinElems xs).map (fun r => "" :: r)
    | x :: xs =>
      match toStringJS E x with
      | .error e => .error e
      | .ok t => (joinElems xs).map (fun r => t :: r)

/-! ## The page and its collaborators -/

/-- A call of `fetch(url, init)` as the script makes it. -/
structure Request where
  url : String
  method : String
  headers : List (String × String)
  body : String
  deriving DecidableEq, Repr

/-- What the script observes of a `Response`: the `ok` flag and the outcome
of `resp.json()`, a parsed value or a rejection. -/
structure Response where
  ok : Bool
  json : Except JSError JSVal

/-- The object literal of lines 25-28, the request of the data model. -/
structure AnalyzeRequest where
  repo_url : String
  issue_number : JSNum
  deriving DecidableEq, Repr

/-- The request object as a value handed to `JSON.stringify`: `repo_url`
first, `issue_number` second. -/
def AnalyzeRequest.toJSVal (r : AnalyzeRequest) : JSVal :=
  .obj [("repo_url", .str r.repo_url), ("issue_number", .num r.issue_number)]

/-- The DOM properties the script touches (named after the constants of
lines 1-7) and the logs of its calls to `fetch`, `alert` and
`navigator.clipboard.writeText` and of its writes to `analyzeBtn.disabled`
and to `statusEl.textContent`. -/
structure Page where
  repoInput_value : String
  issueInput_value : String
  statusEl_textContent : String
  analyzeBtn_disabled : Bool
  jsonOutput_textContent : String
  resultSection_hidden : Bool
  fetchCalls : List Request
  alertCalls : List String
  clipboardWrites : List String
  disabledWrites : List Bool
  statusWrites : List String

/-- A freshly loaded page with the two fields filled in: empty status and
display, enabled button, hidden result area, no effect performed yet. -/
def freshPage (url issue : String) : Page :=
  { repoInput_value := url
    issueInput_value := issue
    statusEl_textContent := ""
    analyzeBtn_disabled := false
    jsonOutput_textContent := ""
    resultSection_hidden := true
    fetchCalls := []
    alertCalls := []
    clipboardWrites := []
    disabledWrites := []
    statusWrites := [] }

/-- The assignment `statusEl.textContent = s`. -/
def Page.setStatus (p : Page) (s : String) : Page :=
  { p with statusEl_textContent := s, statusWrites := p.statusWrites ++ [s] }

/-- The assignment `analyzeBtn.disabled = b`. -/
def Page.setDisabled (p : Page) (b : Bool) : Page :=
  { p with analyzeBtn_disabled := b, disabledWrites := p.disabledWrites ++ [b] }

/-- The assignment `jsonOutput.textContent = s`. -/
def Page.setJsonOutput (p : Page) (s : String) : Page :=
  { p with jsonOutput_textContent := s }

/-- The call `resultSection.classList.remove('hidden')`. -/
def Page.removeHidden (p : Page) : Page :=
  { p with resultSection_hidden := false }

/-- The call `fetch(...)`. -/
def Page.fetch (p : Page) (r : Request) : Page :=
  { p with fetchCalls := p.fetchCalls ++ [r] }

/-- The call `alert(statusEl.textContent)`. -/
def Page.alertStatus (p : Page) : Page :=
  { p with alertCalls := p.alertCalls ++ [p.statusEl_textContent] }

/-- The call `navigator.clipboard.writeText(s)`. -/
def Page.writeText (p : Page) (s : String) : Page :=
  { p with clipboardWrites := p.clipboardWrites ++ [s] }

/-! ## The analyze handler (lines 9-56) -/

/-- Lines 10-16: read the two fields and apply the guard
`!repoUrl || !issueNumber`.  `none` when the guard fires, otherwise the
object of lines 25-28. -/
def validate (p : Page) : Option AnalyzeRequest :=
  let repoUrl := jsTrim p.repoInput_value
  let issueNumber := stringToNumber p.issueInput_value
  if repoUrl = "" ∨ issueNumber.truthy = false then none
  else some { repo_url := repoUrl, issue_number := issueNumber }

/-- Lines 22-29: the arguments of the `fetch` call. -/
def buildRequest (r : AnalyzeRequest) : Request :=
  { url := "http://localhost:8000/analyze_issue"
    method := "POST"
    headers := [("Content-Type", "application/json")]
    body := jsonStringify r.toJSVal }

/-- The page on which a validated run is suspended (lines 18-29). -/
def suspendedPage (p : Page) (r : AnalyzeRequest) : Page :=
  ((p.setStatus "Analyzing issue...").setDisabled true).fetch (buildRequest r)

/-- Lines 10-29, up to the first `await`: the page after the synchronous part
and whether the handler is now suspended on `fetch`. -/
def analyzeStart (p : Page) : Page × Bool :=
  match validate p with
  | none => (p.setStatus "Please enter both repository URL and issue number.", false)
  | some r =>
    (suspendedPage p r, true)

/-- Lines 49-55: the `catch` block followed by the last statement. -/
def catchAndEnable (p : Page) (e : JSError) : Page :=
  (((p.setStatus ("Network error: " ++ e.message)).alertStatus).setDisabled false)

/-- Line 38, right-hand side: `err.detail || JSON.stringify(err)` converted
to text by the concatenation.  Either step may throw. -/
def errorText (E : Engine) (err : JSVal) : Except JSError String :=
  match getDetail E err with
  | .error e => .error e
  | .ok d =>
    if toBoolean d then
      match d with
      | some v => toStringJS E v
      | none => .ok (jsonStringify err)
    else .ok (jsonStringify err)

/-- Lines 32-42, from the settlement of `resp.json()` on: the inner `catch`
substitutes the generic object, the status is set and alerted, the button is
enabled and the handler returns.  An exception of line 38 goes to the outer
`catch`. -/
def errorBranch (E : Engine) (p : Page) (r : Except JSError JSVal) : Page :=
  let err : JSVal :=
    match r with
    | .ok v => v
    | .error _ => .obj [("detail", .str "Unknown error from backend")]
  match errorText E err with
  | .error e => catchAndEnable p e
  | .ok t => (((p.setStatus ("Error: " ++ t)).alertStatus).setDisabled false)

/-- Lines 45-55, from the settlement of `resp.json()` on: render the value,
reveal the result area and report completion, or go to the `catch` block;
then the last statement. -/
def successBranch (p : Page) (r : Except JSError JSVal) : Page :=
  match r with
  | .error e => catchAndEnable p e
  | .ok data =>
    ((((p.setJsonOutput (jsonStringifyIndent2 data)).removeHidden).setStatus
      "Done. Review the analysis below.").setDisabled false)

/-- Lines 31-55 once the response is there: the branch on `resp.ok`. -/
def resumeJson (E : Engine) (p : Page) (resp : Response) : Page :=
  if resp.ok then successBranch p resp.json else errorBranch E p resp.json

/-- Where a suspended run of the analyze handler waits. -/
inductive Pending where
  | fetch
  | json (resp : Response)

/-- Line 22, settlement of `fetch`: a rejection runs the `catch` block and
ends the handler, a response suspends it again on `resp.json()`. -/
def resumeFetch (p : Page) (o : Except JSError Response) : Page × Option Pending :=
  match o with
  | .error e => (catchAndEnable p e, none)
  | .ok resp => (p, some (.json resp))

/-- A complete run of the analyze handler on page `p` when `fetch` settles
with outcome `o`. -/
def analyzeHandler (E : Engine) (p : Page) (o : Except JSError Response) : Page :=
  match analyzeStart p with
  | (p1, false) => p1
  | (p1, true) =>
    match resumeFetch p1 o with
    | (p2, none) => p2
    | (p2, some .fetch) => p2
    | (p2, some (.json resp)) => resumeJson E p2 resp

/-! ## The copy handler (lines 58-65) -/

/-- Lines 58-65. -/
def copyHandler (p : Page) : Page :=
  if jsTrim p.jsonOutput_textContent = "" then p.setStatus "Nothing to copy."
  else (p.writeText p.jsonOutput_textContent).setStatus "JSON copied to clipboard."

/-! ## The controller as a transition system -/

/-- The page together with the suspended runs of the analyze handler. -/
structure Sys where
  page : Page
  inflight : List Pending

/-- The events of the page.  A click on the analyze button is delivered only
while the button is enabled; the fields can be edited and the copy button
clicked at any time; a suspended run resumes when what it awaits settles. -/
inductive Step (E : Engine) : Sys → Sys → Prop where
  | analyzeClick (s : Sys) (h : s.page.analyzeBtn_disabled = false) :
      Step E s
        { page := (analyzeStart s.page).1
          inflight := if (analyzeStart s.page).2 then s.inflight ++ [.fetch] else s.inflight }
  | fetchSettles (s : Sys) (pre post : List Pending) (o : Except JSError Response)
      (h : s.inflight = pre ++ .fetch :: post) :
      Step E s
        { page := (resumeFetch s.page o).1
          inflight := pre ++ (resumeFetch s.page o).2.toList ++ post }
  | jsonSettles (s : Sys) (pre post : List Pending) (resp : Response)
      (h : s.inflight = pre ++ .json resp :: post) :
      Step E s { page := resumeJson E s.page resp, inflight := pre ++ post }
  | copyClick (s : Sys) : Step E s { s with page := copyHandler s.page }
  | edit (s : Sys) (url issue : String) :
      Step E s { s with page := { s.page with repoInput_value := url, issueInput_value := issue } }

/-- States reachable from a page whose analyze button is enabled and on
which no run is suspended. -/
inductive Reachable (E : Engine) : Sys → Prop where
  | init (p : Page) (h : p.analyzeBtn_disabled = false) : Reachable E { page := p, inflight := [] }
  | step (s t : Sys) (hs : Reachable E s) (ht : Step E s t) : Reachable E t

/-- The state one analyze click after loading the page with the example
fields of the specification: the run is suspended on `fetch`. -/
def clickedSys : Sys :=
  { page := (analyzeStart (freshPage "octocat/Hello-World" "42")).1
    inflight := [.fetch] }

end IssueAssistant

namespace IssueAssistant

/-! ## Shared lemmas on the handler -/

/-- The guard of line 13 fires exactly on an empty trimmed URL or a falsy
number. -/
theorem validate_eq_none (p : Page)
    (h : jsTrim p.repoInput_value = "" ∨ (stringToNumber p.issueInput_value).truthy = false) :
    validate p = none := by
  unfold validate
  simp only []
  rw [if_pos h]

/-- When the guard of line 13 does not fire, the request object is built from
the trimmed URL and the parsed number. -/
theorem validate_eq_some (p : Page)
    (h : ¬ (jsTrim p.repoInput_value = "" ∨ (stringToNumber p.issueInput_value).truthy = false)) :
    validate p =
      some { repo_url := jsTrim p.repoInput_value,
             issue_number := stringToNumber p.issueInput_value } := by
  unfold validate
  simp only []
  rw [if_neg h]

/-- A run of the handler stops at the guard when validation fails. -/
theorem analyzeHandler_of_none (E : Engine) (p : Page) (o : Except JSError Response)
    (h : validate p = none) :
    analyzeHandler E p o =
      p.setStatus "Please enter both repository URL and issue number." := by
  simp [analyzeHandler, analyzeStart, h]

/-- A validated run continues after `fetch` from the suspended page. -/
theorem analyzeHandler_of_some (E : Engine) (p : Page) (o : Except JSError Response)
    (r : AnalyzeRequest) (h : validate p = some r) :
    analyzeHandler E p o =
      match o with
      | .error e => catchAndEnable (suspendedPage p r) e
      | .ok resp => resumeJson E (suspendedPage p r) resp := by
  cases o <;> simp [analyzeHandler, analyzeStart, h, resumeFetch]

/-! ## C1: validation failure -/

/-- C1.  When the repository-URL text is empty after trimming, or
`Number` of the issue-number text is falsy, a run of the analyze handler ends
at the guard without suspending: no `fetch` call is added, the status text is
exactly the validation message, and the disabled flag (no write to it
either), the JSON display text and the visibility of the result area are
those of the page before the click.  The empty text, a non-numeric text and
`0` are falsy. -/
theorem validation_failure_aborts (E : Engine) (p : Page) (o : Except JSError Response)
    (h : jsTrim p.repoInput_value = "" ∨
      (stringToNumber p.issueInput_value).truthy = false) :
    (analyzeStart p).2 = false ∧
    (analyzeHandler E p o).fetchCalls = p.fetchCalls ∧
    (analyzeHandler E p o).statusEl_textContent =
      "Please enter both repository URL and issue number." ∧
    (analyzeHandler E p o).analyzeBtn_disabled = p.analyzeBtn_disabled ∧
    (analyzeHandler E p o).disabledWrites = p.disabledWrites ∧
    (analyzeHandler E p o).jsonOutput_textContent = p.jsonOutput_textContent ∧
    (analyzeHandler E p o).resultSection_hidden = p.resultSection_hidden ∧
    (analyzeHandler E p o).alertCalls = p.alertCalls ∧
    (analyzeHandler E p o).statusWrites = p.statusWrites ++
      ["Please enter both repository URL and issue number."] ∧
    (stringToNumber "").truthy = false ∧
    (stringToNumber "abc").truthy = false ∧
    (stringToNumber "0").truthy = false := by
  have hv := validate_eq_none p h
  rw [analyzeHandler_of_none E p o hv]
  refine ⟨?_, rfl, rfl, rfl, rfl, rfl, rfl, rfl, rfl, by decide, by decide, by decide⟩
  simp [analyzeStart, hv]

/-- An instance of C1: a blank URL with issue text `42`, and a URL with the
issue text `abc`. -/
theorem validation_failure_aborts_witness :
    (jsTrim "   " = "" ∨ (stringToNumber "42").truthy = false) ∧
    (analyzeHandler v8Engine (freshPage "   " "42")
      (.error ⟨"unused"⟩)).statusEl_textContent =
      "Please enter both repository URL and issue number." ∧
    (analyzeHandler v8Engine (freshPage "a/b" "abc")
      (.error ⟨"unused"⟩)).fetchCalls = [] :=
  ⟨by decide,
   (validation_failure_aborts v8Engine (freshPage "   " "42")
      (.error ⟨"unused"⟩) (by decide)).2.2.1,
   (validation_failure_aborts v8Engine (freshPage "a/b" "abc")
      (.error ⟨"unused"⟩) (by decide)).2.1⟩

/-! ## C2: the request -/

/-- Neither branch after the settlement of `fetch` calls `fetch` again. -/
theorem resumeJson_fetchCalls (E : Engine) (p : Page) (resp : Response) :
    (resumeJson E p resp).fetchCalls = p.fetchCalls := by
  unfold resumeJson successBranch errorBranch catchAndEnable
  split
  · split <;> rfl
  · simp only []
    split <;> rfl

/-- C2.  When validation passes, a run of the analyze handler calls `fetch`
exactly once, whatever the outcome: method POST, the fixed endpoint, the
header Content-Type application/json, and as body the JSON serialisation of
the object with `repo_url` the trimmed URL followed by `issue_number` the
parsed number.  For the URL `octocat/Hello-World` and the issue text `42` the
body is the text given in the specification. -/
theorem valid_click_sends_one_post (E : Engine) (p : Page) (o : Except JSError Response)
    (hurl : jsTrim p.repoInput_value ≠ "")
    (hnum : (stringToNumber p.issueInput_value).truthy = true) :
    (analyzeHandler E p o).fetchCalls = p.fetchCalls ++
      [{ url := "http://localhost:8000/analyze_issue"
         method := "POST"
         headers := [("Content-Type", "application/json")]
         body := jsonStringify (.obj [("repo_url", .str (jsTrim p.repoInput_value)),
           ("issue_number", .num (stringToNumber p.issueInput_value))]) }] ∧
    (p.repoInput_value = "octocat/Hello-World" → p.issueInput_value = "42" →
      (analyzeHandler E p o).fetchCalls = p.fetchCalls ++
        [{ url := "http://localhost:8000/analyze_issue"
           method := "POST"
           headers := [("Content-Type", "application/json")]
           body := "\x7b\"repo_url\":\"octocat/Hello-World\",\"issue_number\":42\x7d" }]) := by
  have hv := validate_eq_some p (by simp [hurl, hnum])
  have key : (analyzeHandler E p o).fetchCalls = p.fetchCalls ++
      [buildRequest { repo_url := jsTrim p.repoInput_value,
                      issue_number := stringToNumber p.issueInput_value }] := by
    rw [analyzeHandler_of_some E p o _ hv]
    cases o with
    | error e => rfl
    | ok resp => simp only []; rw [resumeJson_fetchCalls]; rfl
  refine ⟨key, ?_⟩
  intro h1 h2
  rw [key, h1, h2]
  have hb : buildRequest ⟨jsTrim "octocat/Hello-World", stringToNumber "42"⟩ =
      { url := "http://localhost:8000/analyze_issue"
        method := "POST"
        headers := [("Content-Type", "application/json")]
        body := "\x7b\"repo_url\":\"octocat/Hello-World\",\"issue_number\":42\x7d" } := by
    decide
  rw [hb]

/-- An instance of C2: the example of the specification, with a successful
response. -/
theorem valid_click_sends_one_post_witness :
    (analyzeHandler v8Engine (freshPage "octocat/Hello-World" "42")
      (.ok ⟨true, .ok .null⟩)).fetchCalls =
      [{ url := "http://localhost:8000/analyze_issue"
         method := "POST"
         headers := [("Content-Type", "application/json")]
         body := "\x7b\"repo_url\":\"octocat/Hello-World\",\"issue_number\":42\x7d" }] :=
  (valid_click_sends_one_post v8Engine (freshPage "octocat/Hello-World" "42")
    (.ok ⟨true, .ok .null⟩) (by decide) (by decide)).2 rfl rfl

/-! ## C3: the success path -/

/-- C3.  On a validated run, for every response with `ok` set whose body
parses as the value `d`: the JSON display text becomes
`JSON.stringify(d, null, 2)`, the result area is no longer hidden, the
status text becomes the completion message, no alert is raised and the button
ends enabled.  For the body with the single member `summary` of value `ok`
the display text is the three-line rendering with that member indented by
two spaces. -/
theorem success_renders_json (E : Engine) (p : Page) (resp : Response) (d : JSVal)
    (hurl : jsTrim p.repoInput_value ≠ "")
    (hnum : (stringToNumber p.issueInput_value).truthy = true)
    (hok : resp.ok = true) (hjson : resp.json = .ok d) :
    (analyzeHandler E p (.ok resp)).jsonOutput_textContent = jsonStringifyIndent2 d ∧
    (analyzeHandler E p (.ok resp)).resultSection_hidden = false ∧
    (analyzeHandler E p (.ok resp)).statusEl_textContent =
      "Done. Review the analysis below." ∧
    (analyzeHandler E p (.ok resp)).alertCalls = p.alertCalls ∧
    (analyzeHandler E p (.ok resp)).analyzeBtn_disabled = false ∧
    jsonStringifyIndent2 (.obj [("summary", .str "ok")]) =
      "\x7b\n  \"summary\": \"ok\"\n\x7d" := by
  have hv := validate_eq_some p (by simp [hurl, hnum])
  rw [analyzeHandler_of_some E p (.ok resp) _ hv]
  simp only [resumeJson, hok, hjson, if_true, successBranch]
  exact ⟨rfl, rfl, rfl, rfl, rfl, by decide⟩

/-- An instance of C3: the example of the specification. -/
theorem success_renders_json_witness :
    (analyzeHandler v8Engine (freshPage "octocat/Hello-World" "42")
      (.ok ⟨true, .ok (.obj [("summary", .str "ok")])⟩)).jsonOutput_textContent =
      "\x7b\n  \"summary\": \"ok\"\n\x7d" ∧
    (analyzeHandler v8Engine (freshPage "octocat/Hello-World" "42")
      (.ok ⟨true, .ok (.obj [("summary", .str "ok")])⟩)).resultSection_hidden = false :=
  ⟨((success_renders_json v8Engine (freshPage "octocat/Hello-World" "42")
      ⟨true, .ok (.obj [("summary", .str "ok")])⟩ (.obj [("summary", .str "ok")])
      (by decide) (by decide) rfl rfl).1).trans
    (success_renders_json v8Engine (freshPage "octocat/Hello-World" "42")
      ⟨true, .ok (.obj [("summary", .str "ok")])⟩ (.obj [("summary", .str "ok")])
      (by decide) (by decide) rfl rfl).2.2.2.2.2,
   (success_renders_json v8Engine (freshPage "octocat/Hello-World" "42")
      ⟨true, .ok (.obj [("summary", .str "ok")])⟩ (.obj [("summary", .str "ok")])
      (by decide) (by decide) rfl rfl).2.1⟩

/-! ## C4: the backend error path -/

/-- The text of line 38 for an object whose `detail` is a non-empty string. -/
theorem errorText_of_detail (E : Engine) (fs : List (String × JSVal)) (s : String)
    (hd : lookupProp "detail" fs = some (.str s)) (hs : s ≠ "") :
    errorText E (.obj fs) = .ok s := by
  simp [errorText, getDetail, hd, toBoolean, hs, toStringJS]

/-- C4.  On a validated run, for every response with `ok` unset: when the body
parses as an object whose `detail` is a non-empty string, the status text
becomes `Error: ` followed by that detail; when the body fails to parse, it
becomes `Error: Unknown error from backend`.  In both cases exactly one alert
is raised, with the new status text, the visibility of the result area and
the JSON display text are unchanged, and the button ends enabled. -/
theorem backend_error_reports_detail (E : Engine) (p : Page) (resp : Response)
    (hurl : jsTrim p.repoInput_value ≠ "")
    (hnum : (stringToNumber p.issueInput_value).truthy = true)
    (hok : resp.ok = false) :
    (∀ (fs : List (String × JSVal)) (s : String),
      resp.json = .ok (.obj fs) → lookupProp "detail" fs = some (.str s) → s ≠ "" →
        (analyzeHandler E p (.ok resp)).statusEl_textContent = "Error: " ++ s ∧
        (analyzeHandler E p (.ok resp)).alertCalls = p.alertCalls ++ ["Error: " ++ s] ∧
        (analyzeHandler E p (.ok resp)).resultSection_hidden = p.resultSection_hidden ∧
        (analyzeHandler E p (.ok resp)).jsonOutput_textContent = p.jsonOutput_textContent ∧
        (analyzeHandler E p (.ok resp)).analyzeBtn_disabled = false) ∧
    (∀ (e : JSError), resp.json = .error e →
        (analyzeHandler E p (.ok resp)).statusEl_textContent =
          "Error: Unknown error from backend" ∧
        (analyzeHandler E p (.ok resp)).alertCalls =
          p.alertCalls ++ ["Error: Unknown error from backend"] ∧
        (analyzeHandler E p (.ok resp)).resultSection_hidden = p.resultSection_hidden ∧
        (analyzeHandler E p (.ok resp)).jsonOutput_textContent = p.jsonOutput_textContent ∧
        (analyzeHandler E p (.ok resp)).analyzeBtn_disabled = false) := by
  have hv := validate_eq_some p (by simp [hurl, hnum])
  rw [analyzeHandler_of_some E p (.ok resp) _ hv]
  constructor
  · intro fs s hjson hd hs
    simp only [resumeJson, hok, hjson, errorBranch, errorText_of_detail E fs s hd hs]
    exact ⟨rfl, rfl, rfl, rfl, rfl⟩
  · intro e hjson
    have ht : errorText E (.obj [("detail", .str "Unknown error from backend")]) =
        .ok "Unknown error from backend" :=
      errorText_of_detail E _ _ rfl (by decide)
    simp only [resumeJson, hok, hjson, errorBranch, ht]
    exact ⟨rfl, rfl, rfl, rfl, rfl⟩

/-- Instances of C4: the two examples of the specification, on a page whose
result area is hidden. -/
theorem backend_error_reports_detail_witness :
    ((analyzeHandler v8Engine (freshPage "octocat/Hello-World" "42")
      (.ok ⟨false, .ok (.obj [("detail", .str "repo not found")])⟩)).statusEl_textContent =
      "Error: repo not found" ∧
     (analyzeHandler v8Engine (freshPage "octocat/Hello-World" "42")
      (.ok ⟨false, .ok (.obj [("detail", .str "repo not found")])⟩)).resultSection_hidden =
      true) ∧
    (analyzeHandler v8Engine (freshPage "octocat/Hello-World" "42")
      (.ok ⟨false, .error ⟨"Unexpected token"⟩⟩)).statusEl_textContent =
      "Error: Unknown error from backend" :=
  ⟨⟨((backend_error_reports_detail v8Engine (freshPage "octocat/Hello-World" "42")
        ⟨false, .ok (.obj [("detail", .str "repo not found")])⟩
        (by decide) (by decide) rfl).1 _ "repo not found" rfl rfl (by decide)).1,
    ((backend_error_reports_detail v8Engine (freshPage "octocat/Hello-World" "42")
        ⟨false, .ok (.obj [("detail", .str "repo not found")])⟩
        (by decide) (by decide) rfl).1 _ "repo not found" rfl rfl
        (by decide)).2.2.1⟩,
   ((backend_error_reports_detail v8Engine (freshPage "octocat/Hello-World" "42")
        ⟨false, .error ⟨"Unexpected token"⟩⟩
        (by decide) (by decide) rfl).2 ⟨"Unexpected token"⟩ rfl).1⟩

/-! ## C5: a parsed error body without `detail` -/

/-- C5, as stated, fails.  A response with `ok` unset whose body parses as
the object with the single member `message` carries no `detail`; the status
text becomes `Error: ` followed by the serialised body, not the generic
message. -/
theorem missing_detail_counterexample :
    getDetail v8Engine (.obj [("message", .str "boom")]) = .ok none ∧
    (analyzeHandler v8Engine (freshPage "octocat/Hello-World" "42")
      (.ok ⟨false, .ok (.obj [("message", .str "boom")])⟩)).statusEl_textContent =
      "Error: \x7b\"message\":\"boom\"\x7d" ∧
    (analyzeHandler v8Engine (freshPage "octocat/Hello-World" "42")
      (.ok ⟨false, .ok (.obj [("message", .str "boom")])⟩)).statusEl_textContent ≠
      "Error: Unknown error from backend" :=
  ⟨rfl, by decide, by decide⟩

/-- C5, amended.  On a validated run, for every response with `ok` unset
whose body parses as a value `d` on which the read of `detail` gives
`undefined` (any value but `null` without an own `detail`): the status text
becomes `Error: ` followed by `JSON.stringify(d)`, exactly one alert is raised
with that text, the visibility of the result area and the JSON display text
are unchanged, and the button ends enabled. -/
theorem missing_detail_reports_body (E : Engine) (p : Page) (resp : Response) (d : JSVal)
    (hurl : jsTrim p.repoInput_value ≠ "")
    (hnum : (stringToNumber p.issueInput_value).truthy = true)
    (hok : resp.ok = false) (hjson : resp.json = .ok d)
    (hdetail : getDetail E d = .ok none) :
    (analyzeHandler E p (.ok resp)).statusEl_textContent = "Error: " ++ jsonStringify d ∧
    (analyzeHandler E p (.ok resp)).alertCalls =
      p.alertCalls ++ ["Error: " ++ jsonStringify d] ∧
    (analyzeHandler E p (.ok resp)).resultSection_hidden = p.resultSection_hidden ∧
    (analyzeHandler E p (.ok resp)).jsonOutput_textContent = p.jsonOutput_textContent ∧
    (analyzeHandler E p (.ok resp)).analyzeBtn_disabled = false := by
  have hv := validate_eq_some p (by simp [hurl, hnum])
  have ht : errorText E d = .ok (jsonStringify d) := by
    simp [errorText, hdetail, toBoolean]
  rw [analyzeHandler_of_some E p (.ok resp) _ hv]
  simp only [resumeJson, hok, hjson, errorBranch, ht]
  exact ⟨rfl, rfl, rfl, rfl, rfl⟩

/-- An instance of the amended C5: the empty object as error body. -/
theorem missing_detail_reports_body_witness :
    (analyzeHandler v8Engine (freshPage "octocat/Hello-World" "42")
      (.ok ⟨false, .ok (.obj [])⟩)).statusEl_textContent =
      "Error: " ++ jsonStringify (.obj []) ∧
    "Error: " ++ jsonStringify (.obj []) = "Error: \x7b\x7d" :=
  ⟨(missing_detail_reports_body v8Engine (freshPage "octocat/Hello-World" "42")
      ⟨false, .ok (.obj [])⟩ (.obj []) (by decide) (by decide) rfl rfl rfl).1,
   by decide⟩

/-! ## C6 and C10: the `catch` branch -/

/-- A status text written by the `catch` block is never the completion
message. -/
theorem network_error_ne_done (m : String) :
    "Network error: " ++ m ≠ "Done. Review the analysis below." := by
  intro h
  have h1 := congrArg String.data h
  rw [String.data_append] at h1
  have h2 : "Network error: ".data = 'N' :: "etwork error: ".data := rfl
  have h3 : "Done. Review the analysis below.".data =
      'D' :: "one. Review the analysis below.".data := rfl
  rw [h2, h3, List.cons_append] at h1
  exact absurd (List.cons.inj h1).1 (by decide)

/-- C6.  On a validated run, when `fetch` is rejected with an error of
message `m`: the status text becomes `Network error: ` followed by `m`,
exactly one alert is raised with that text, the JSON display text and the
visibility of the result area are unchanged, and the button ends enabled.
For `m = timeout` the status text is `Network error: timeout`. -/
theorem transport_failure_reported (E : Engine) (p : Page) (e : JSError)
    (hurl : jsTrim p.repoInput_value ≠ "")
    (hnum : (stringToNumber p.issueInput_value).truthy = true) :
    (analyzeHandler E p (.error e)).statusEl_textContent = "Network error: " ++ e.message ∧
    (analyzeHandler E p (.error e)).alertCalls =
      p.alertCalls ++ ["Network error: " ++ e.message] ∧
    (analyzeHandler E p (.error e)).jsonOutput_textContent = p.jsonOutput_textContent ∧
    (analyzeHandler E p (.error e)).resultSection_hidden = p.resultSection_hidden ∧
    (analyzeHandler E p (.error e)).analyzeBtn_disabled = false ∧
    (e.message = "timeout" →
      (analyzeHandler E p (.error e)).statusEl_textContent = "Network error: timeout") := by
  have hv := validate_eq_some p (by simp [hurl, hnum])
  rw [analyzeHandler_of_some E p (.error e) _ hv]
  refine ⟨rfl, rfl, rfl, rfl, rfl, ?_⟩
  intro hm
  simp only [catchAndEnable, Page.setDisabled, Page.alertStatus, Page.setStatus, hm]
  decide

/-- An instance of C6: the example of the specification. -/
theorem transport_failure_reported_witness :
    (analyzeHandler v8Engine (freshPage "octocat/Hello-World" "42")
      (.error ⟨"timeout"⟩)).statusEl_textContent = "Network error: timeout" :=
  (transport_failure_reported v8Engine (freshPage "octocat/Hello-World" "42") ⟨"timeout"⟩
    (by decide) (by decide)).2.2.2.2.2 rfl

/-- C10.  On a validated run, for every response with `ok` set whose body
fails to parse, `resp.json()` rejecting with an error of message `m`: the
handler goes through the `catch` block.  The status text becomes
`Network error: ` followed by `m`, exactly one alert is raised with that
text, the JSON display text and the visibility of the result area are
unchanged, the only status texts written are the progress message and the
error text, which is not the completion message, and the button ends
enabled. -/
theorem unparseable_success_body_reported (E : Engine) (p : Page) (resp : Response)
    (e : JSError)
    (hurl : jsTrim p.repoInput_value ≠ "")
    (hnum : (stringToNumber p.issueInput_value).truthy = true)
    (hok : resp.ok = true) (hjson : resp.json = .error e) :
    (analyzeHandler E p (.ok resp)).statusEl_textContent = "Network error: " ++ e.message ∧
    (analyzeHandler E p (.ok resp)).alertCalls =
      p.alertCalls ++ ["Network error: " ++ e.message] ∧
    (analyzeHandler E p (.ok resp)).jsonOutput_textContent = p.jsonOutput_textContent ∧
    (analyzeHandler E p (.ok resp)).resultSection_hidden = p.resultSection_hidden ∧
    (analyzeHandler E p (.ok resp)).statusWrites =
      p.statusWrites ++ ["Analyzing issue...", "Network error: " ++ e.message] ∧
    (analyzeHandler E p (.ok resp)).statusEl_textContent ≠
      "Done. Review the analysis below." ∧
    (analyzeHandler E p (.ok resp)).analyzeBtn_disabled = false := by
  have hv := validate_eq_some p (by simp [hurl, hnum])
  rw [analyzeHandler_of_some E p (.ok resp) _ hv]
  simp only [resumeJson, hok, hjson, if_true, successBranch]
  refine ⟨rfl, rfl, rfl, rfl, ?_, network_error_ne_done e.message, rfl⟩
  simp [catchAndEnable, Page.setDisabled, Page.alertStatus, Page.setStatus, suspendedPage,
    Page.fetch]

/-- An instance of C10: a success status with a body that is not JSON. -/
theorem unparseable_success_body_reported_witness :
    (analyzeHandler v8Engine (freshPage "octocat/Hello-World" "42")
      (.ok ⟨true, .error ⟨"Unexpected token"⟩⟩)).statusEl_textContent =
      "Network error: " ++ "Unexpected token" ∧
    (analyzeHandler v8Engine (freshPage "octocat/Hello-World" "42")
      (.ok ⟨true, .error ⟨"Unexpected token"⟩⟩)).resultSection_hidden = true :=
  ⟨(unparseable_success_body_reported v8Engine (freshPage "octocat/Hello-World" "42")
      ⟨true, .error ⟨"Unexpected token"⟩⟩ ⟨"Unexpected token"⟩
      (by decide) (by decide) rfl rfl).1,
   (unparseable_success_body_reported v8Engine (freshPage "octocat/Hello-World" "42")
      ⟨true, .error ⟨"Unexpected token"⟩⟩ ⟨"Unexpected token"⟩
      (by decide) (by decide) rfl rfl).2.2.2.1⟩

/-! ## Trimming -/

/-- Trimming at the start leaves nothing exactly when every character is
white space. -/
theorem trimStart_eq_nil (cs : List Char) :
    trimStart cs = [] ↔ cs.all isJSWhiteSpace = true := by
  induction cs with
  | nil => simp [trimStart]
  | cons c cs ih =>
    unfold trimStart
    by_cases hc : isJSWhiteSpace c = true
    · simp [hc, ih]
    · simp [hc]

/-- The first character left by trimming at the start is not white space. -/
theorem trimStart_head (cs : List Char) (c : Char)
    (h : (trimStart cs).head? = some c) : isJSWhiteSpace c = false := by
  induction cs with
  | nil => simp [trimStart] at h
  | cons a cs ih =>
    unfold trimStart at h
    by_cases ha : isJSWhiteSpace a = true
    · rw [if_pos ha] at h
      exact ih h
    · rw [if_neg ha] at h
      simp only [List.head?_cons, Option.some.injEq] at h
      subst h
      simpa using ha

/-- Trimming at the start keeps a suffix. -/
theorem trimStart_suffix (cs : List Char) : trimStart cs <:+ cs := by
  induction cs with
  | nil => exact List.suffix_refl _
  | cons a cs ih =>
    unfold trimStart
    by_cases ha : isJSWhiteSpace a = true
    · rw [if_pos ha]
      exact ih.trans (List.suffix_cons a cs)
    · rw [if_neg ha]

/-- Trimming at the start twice is trimming once. -/
theorem trimStart_idem (cs : List Char) : trimStart (trimStart cs) = trimStart cs := by
  induction cs with
  | nil => rfl
  | cons a cs ih =>
    by_cases ha : isJSWhiteSpace a = true
    · have h1 : trimStart (a :: cs) = trimStart cs := by
        rw [trimStart, if_pos ha]
      rw [h1, ih]
    · have h1 : trimStart (a :: cs) = a :: cs := by
        rw [trimStart, if_neg ha]
      rw [h1, h1]

/-- The trimmed text is empty exactly when every character is white space. -/
theorem trimChars_eq_nil (cs : List Char) :
    trimChars cs = [] ↔ cs.all isJSWhiteSpace = true := by
  unfold trimChars trimEnd
  rw [List.reverse_eq_nil_iff, trimStart_eq_nil, List.all_reverse, ← trimStart_eq_nil,
    trimStart_idem, trimStart_eq_nil]

/-- The guard `!s.trim()` in terms of the characters of `s`. -/
theorem jsTrim_eq_empty (s : String) :
    jsTrim s = "" ↔ s.data.all isJSWhiteSpace = true := by
  rw [← trimChars_eq_nil]
  unfold jsTrim
  constructor
  · intro h
    exact congrArg String.data h
  · intro h
    rw [h]

/-- The first character of a trimmed text is not white space. -/
theorem trimChars_head (cs : List Char) (c : Char)
    (h : (trimChars cs).head? = some c) : isJSWhiteSpace c = false := by
  unfold trimChars trimEnd at h
  have hp : (trimStart (trimStart cs).reverse).reverse <+: trimStart cs := by
    have := trimStart_suffix (trimStart cs).reverse
    rw [← List.reverse_prefix] at this
    simpa using this
  obtain ⟨r, hr⟩ := hp
  cases hl : (trimStart (trimStart cs).reverse).reverse with
  | nil => rw [hl] at h; simp at h
  | cons a t =>
    rw [hl] at h hr
    simp only [List.head?_cons, Option.some.injEq] at h
    subst h
    apply trimStart_head cs
    rw [← hr]
    rfl

/-- The last character of a trimmed text is not white space. -/
theorem trimChars_getLast (cs : List Char) (c : Char)
    (h : (trimChars cs).getLast? = some c) : isJSWhiteSpace c = false := by
  unfold trimChars trimEnd at h
  rw [List.getLast?_reverse] at h
  exact trimStart_head _ c h

/-! ## C8: the copy handler -/

/-- C8.  For every JSON display text `t`: when `t` is empty or holds only
white space, the copy handler sets the status text to `Nothing to copy.` and
writes nothing to the clipboard; otherwise it writes to the clipboard exactly
once, the text `t` itself, and sets the status text to
`JSON copied to clipboard.`.  In both cases the JSON display text, the
visibility of the result area and the disabled flag of the analyze button are
unchanged. -/
theorem copy_handler_behaviour (p : Page) :
    (p.jsonOutput_textContent.data.all isJSWhiteSpace = true →
      (copyHandler p).statusEl_textContent = "Nothing to copy." ∧
      (copyHandler p).clipboardWrites = p.clipboardWrites) ∧
    (p.jsonOutput_textContent.data.all isJSWhiteSpace = false →
      (copyHandler p).statusEl_textContent = "JSON copied to clipboard." ∧
      (copyHandler p).clipboardWrites =
        p.clipboardWrites ++ [p.jsonOutput_textContent]) ∧
    (copyHandler p).jsonOutput_textContent = p.jsonOutput_textContent ∧
    (copyHandler p).resultSection_hidden = p.resultSection_hidden ∧
    (copyHandler p).analyzeBtn_disabled = p.analyzeBtn_disabled ∧
    (copyHandler p).disabledWrites = p.disabledWrites := by
  refine ⟨?_, ?_, ?_, ?_, ?_, ?_⟩
  · intro h
    have ht := (jsTrim_eq_empty p.jsonOutput_textContent).mpr h
    simp only [copyHandler, if_pos ht]
    exact ⟨rfl, rfl⟩
  · intro h
    have ht : ¬ jsTrim p.jsonOutput_textContent = "" := by
      rw [jsTrim_eq_empty, h]
      decide
    simp only [copyHandler, if_neg ht]
    exact ⟨rfl, rfl⟩
  all_goals
    unfold copyHandler
    split <;> rfl

/-- Instances of C8: an empty display, a display of blanks, and a display
holding text surrounded by white space. -/
theorem copy_handler_behaviour_witness :
    (copyHandler (freshPage "" "")).statusEl_textContent = "Nothing to copy." ∧
    (copyHandler (freshPage "" "")).clipboardWrites = [] ∧
    (copyHandler { freshPage "" "" with jsonOutput_textContent := " \n\t" }).clipboardWrites
      = [] ∧
    (copyHandler { freshPage "" "" with jsonOutput_textContent := " [1] \n" }).clipboardWrites
      = [" [1] \n"] :=
  ⟨((copy_handler_behaviour (freshPage "" "")).1 (by decide)).1,
   ((copy_handler_behaviour (freshPage "" "")).1 (by decide)).2,
   ((copy_handler_behaviour
      { freshPage "" "" with jsonOutput_textContent := " \n\t" }).1 (by decide)).2,
   ((copy_handler_behaviour
      { freshPage "" "" with jsonOutput_textContent := " [1] \n" }).2.1 (by decide)).2⟩

/-! ## C9: the request object -/

/-- C9, as stated, fails.  With the issue text `1.5` validation passes and
the request object holds the number 1.5, which is not an integer; the request
is sent with that number in its body. -/
theorem request_issue_number_counterexample :
    validate (freshPage "octocat/Hello-World" "1.5") =
      some { repo_url := "octocat/Hello-World", issue_number := stringToNumber "1.5" } ∧
    (stringToNumber "1.5").isInteger = false ∧
    (analyzeStart (freshPage "octocat/Hello-World" "1.5")).1.fetchCalls =
      [{ url := "http://localhost:8000/analyze_issue"
         method := "POST"
         headers := [("Content-Type", "application/json")]
         body := "\x7b\"repo_url\":\"octocat/Hello-World\",\"issue_number\":1.5\x7d" }] :=
  ⟨by decide, by decide, by decide⟩

/-- C9, amended.  For every page, the analyze handler sends a request only
for a request object `r` that passes the guard of line 13, and then:
`repo_url` is a non-empty text whose first and last characters are not white
space, and `issue_number` is `Number` of the issue-number text, a Number that
is neither NaN nor a zero.  Nothing makes it an integer. -/
theorem request_object_model (p : Page) (r : AnalyzeRequest) (h : validate p = some r) :
    (analyzeStart p).1.fetchCalls = p.fetchCalls ++ [buildRequest r] ∧
    r.repo_url = jsTrim p.repoInput_value ∧
    r.repo_url ≠ "" ∧
    (∀ c, r.repo_url.data.head? = some c → isJSWhiteSpace c = false) ∧
    (∀ c, r.repo_url.data.getLast? = some c → isJSWhiteSpace c = false) ∧
    r.issue_number = stringToNumber p.issueInput_value ∧
    r.issue_number ≠ .nan ∧
    (∀ neg e, r.issue_number ≠ .fin neg 0 e) := by
  have hs : (analyzeStart p).1.fetchCalls = p.fetchCalls ++ [buildRequest r] := by
    simp [analyzeStart, h, suspendedPage, Page.fetch, Page.setDisabled, Page.setStatus]
  unfold validate at h
  simp only [] at h
  split at h
  · exact absurd h (by simp)
  · rename_i hg
    rw [not_or] at hg
    have hr := (Option.some.inj h).symm
    subst hr
    refine ⟨hs, rfl, hg.1, ?_, ?_, rfl, ?_, ?_⟩
    · intro c hc
      exact trimChars_head _ c hc
    · intro c hc
      exact trimChars_getLast _ c hc
    · intro hn
      simp only [] at hn
      rw [hn] at hg
      exact hg.2 rfl
    · intro neg e hn
      simp only [] at hn
      rw [hn] at hg
      exact hg.2 rfl

/-- An instance of the amended C9: a padded URL and an integer issue text. -/
theorem request_object_model_witness :
    validate (freshPage "  octocat/Hello-World\n" " 42 ") =
      some { repo_url := "octocat/Hello-World", issue_number := JSNum.ofNat 42 } ∧
    (analyzeStart (freshPage "  octocat/Hello-World\n" " 42 ")).1.fetchCalls =
      [] ++ [buildRequest { repo_url := "octocat/Hello-World",
                            issue_number := JSNum.ofNat 42 }] :=
  ⟨by decide,
   (request_object_model (freshPage "  octocat/Hello-World\n" " 42 ")
      { repo_url := "octocat/Hello-World", issue_number := JSNum.ofNat 42 } (by decide)).1⟩

/-! ## C7: one request in flight -/

/-- Both branches after `resp.json()` leave the button enabled. -/
theorem resumeJson_disabled (E : Engine) (p : Page) (resp : Response) :
    (resumeJson E p resp).analyzeBtn_disabled = false := by
  unfold resumeJson successBranch errorBranch catchAndEnable
  split
  · split <;> rfl
  · simp only []
    split <;> rfl

/-- Both branches after `resp.json()` write `false` to the disabled flag,
once. -/
theorem resumeJson_disabledWrites (E : Engine) (p : Page) (resp : Response) :
    (resumeJson E p resp).disabledWrites = p.disabledWrites ++ [false] := by
  unfold resumeJson successBranch errorBranch catchAndEnable
  split
  · split <;> rfl
  · simp only []
    split <;> rfl

/-- The copy handler does not touch the disabled flag. -/
theorem copyHandler_disabled (p : Page) :
    (copyHandler p).analyzeBtn_disabled = p.analyzeBtn_disabled := by
  unfold copyHandler
  split <;> rfl

/-- The invariant of the controller: the button is enabled with no suspended
run, or disabled with exactly one. -/
theorem reachable_invariant (E : Engine) (s : Sys) (hs : Reachable E s) :
    (s.page.analyzeBtn_disabled = false ∧ s.inflight = []) ∨
    (s.page.analyzeBtn_disabled = true ∧ ∃ k, s.inflight = [k]) := by
  induction hs with
  | init p h => exact Or.inl ⟨h, rfl⟩
  | step s t _ ht ih =>
    cases ht with
    | analyzeClick h =>
      rcases ih with ⟨_, hin⟩ | ⟨hd, _⟩
      · cases hv : validate s.page with
        | none =>
          left
          simp [analyzeStart, hv, Page.setStatus, h, hin]
        | some r =>
          right
          simp [analyzeStart, hv, suspendedPage, Page.fetch, Page.setDisabled, hin]
      · rw [h] at hd
        exact absurd hd (by decide)
    | fetchSettles pre post o h =>
      rcases ih with ⟨_, hin⟩ | ⟨hd, k, hk⟩
      · rw [hin] at h
        exact absurd h (by simp)
      · rw [hk] at h
        have hpre : pre = [] := by
          cases pre with
          | nil => rfl
          | cons a pre => simp at h
        subst hpre
        have hpost : post = [] := by
          simp only [List.nil_append, List.cons.injEq] at h
          exact h.2.symm
        subst hpost
        cases o with
        | error e =>
          left
          simp [resumeFetch, catchAndEnable, Page.setDisabled]
        | ok resp =>
          right
          simp [resumeFetch, hd]
    | jsonSettles pre post resp h =>
      rcases ih with ⟨_, hin⟩ | ⟨_, k, hk⟩
      · rw [hin] at h
        exact absurd h (by simp)
      · rw [hk] at h
        have hpre : pre = [] := by
          cases pre with
          | nil => rfl
          | cons a pre => simp at h
        subst hpre
        have hpost : post = [] := by
          simp only [List.nil_append, List.cons.injEq] at h
          exact h.2.symm
        subst hpost
        left
        exact ⟨resumeJson_disabled E _ resp, rfl⟩
    | copyClick =>
      simp only [copyHandler_disabled]
      exact ih
    | edit url issue => exact ih

/-- C7.  With analyze clicks delivered only while the button is enabled: in
every reachable state the button is disabled exactly when a run of the
handler is suspended on its request, and at most one run is; and a validated
run, whatever the outcome of `fetch` and of `resp.json()` (success, handled
HTTP error, network failure), writes `true` and then, exactly once, `false`
to the disabled flag and ends with the button enabled. -/
theorem single_request_in_flight (E : Engine) :
    (∀ s, Reachable E s →
      (s.page.analyzeBtn_disabled = true ↔ s.inflight ≠ []) ∧ s.inflight.length ≤ 1) ∧
    (∀ (p : Page) (o : Except JSError Response), validate p ≠ none →
      (analyzeHandler E p o).disabledWrites = p.disabledWrites ++ [true, false] ∧
      (analyzeHandler E p o).analyzeBtn_disabled = false) := by
  constructor
  · intro s hs
    rcases reachable_invariant E s hs with ⟨hd, hin⟩ | ⟨hd, k, hk⟩
    · simp [hd, hin]
    · simp [hd, hk]
  · intro p o hv
    cases hr : validate p with
    | none => exact absurd hr hv
    | some r =>
      rw [analyzeHandler_of_some E p o r hr]
      cases o with
      | error e =>
        simp [catchAndEnable, Page.setDisabled, Page.alertStatus, Page.setStatus,
          suspendedPage, Page.fetch]
      | ok resp =>
        simp only []
        rw [resumeJson_disabledWrites, resumeJson_disabled]
        simp [Page.setDisabled, Page.setStatus, suspendedPage, Page.fetch]

/-- An instance of C7: after one click on the example page the button is
disabled with one run suspended, and the run of the handler on a backend
error writes `true`, `false`. -/
theorem single_request_in_flight_witness :
    Reachable v8Engine clickedSys ∧
    (clickedSys.page.analyzeBtn_disabled = true ↔ clickedSys.inflight ≠ []) ∧
    clickedSys.inflight.length ≤ 1 ∧
    (analyzeHandler v8Engine (freshPage "octocat/Hello-World" "42")
      (.ok ⟨false, .ok (.obj [])⟩)).disabledWrites = [] ++ [true, false] :=
  have hr : Reachable v8Engine clickedSys :=
    Reachable.step _ _ (Reachable.init (freshPage "octocat/Hello-World" "42") rfl)
      (Step.analyzeClick _ rfl)
  ⟨hr,
   ((single_request_in_flight v8Engine).1 clickedSys hr).1,
   ((single_request_in_flight v8Engine).1 clickedSys hr).2,
   ((single_request_in_flight v8Engine).2 (freshPage "octocat/Hello-World" "42")
      (.ok ⟨false, .ok (.obj [])⟩) (by decide)).1⟩

end IssueAssistant
